import Mathlib

/-!
# Verification of the DualKnobRings knob controller and gauge renderer

Shallow embedding of `src/KnobApp/DualKnobRings.py`.

The controller state machine works on exact angle arithmetic here: angles,
accumulators and the dead-zone threshold are rationals (`ℚ`), counter values
are integers (`ℤ`).  The geometry functions `math.hypot` (inside `dist`) and
`math.atan2` (inside `angle_from`) are transcendental float computations; a
pointer sample is therefore represented by the values those functions produce
for it — one distance outcome and one angle per knob zone — and the control
flow of `_process_point`, `_apply_delta`, `normalize_deg` and the rendering
arithmetic of `paintEvent` are translated literally over those inputs.
Distance outcomes keep the IEEE float comparison behaviour that the dispatch
relies on: a NaN or infinite distance fails the `dist(p, c) <= KNOB_RADIUS`
test.
-/

namespace KnobApp

/-! ## Module-level knob settings (`DualKnobRings.py`, lines 17-22) -/

def DEGREES_PER_TICK : ℚ := 8

def CLOCKWISE_IS_UP : Bool := true

def MIN_COUNT : ℤ := 0

def MAX_COUNT : ℤ := 100

/-- Active area radius in pixels. -/
def KNOB_RADIUS : ℚ := 250

/-! ## `normalize_deg` (lines 36-41) -/

/-- `normalize_deg(d)`: subtract 360 when `d > 180`, else add 360 when
`d < -180`, else return `d` unchanged. -/
def normalize_deg (d : ℚ) : ℚ :=
  if d > 180 then d - 360
  else if d < -180 then d + 360
  else d

/-! ## Distance outcomes

`dist(a, b) = math.hypot(...)` returns a Python float: a finite non-negative
value, `inf`, or `nan`.  `_process_point` only ever uses the comparison
`dist(p, c) <= KNOB_RADIUS`; under IEEE semantics that comparison is false
for `nan` and for `inf`, and is ordinary order comparison for finite values.
Finite distances are carried as exact rationals. -/
inductive FloatDist where
  | nan : FloatDist
  | inf : FloatDist
  | fin (q : ℚ) : FloatDist
  deriving DecidableEq

/-- The Python comparison `d <= bound` for a distance outcome `d` and a finite
(rational) bound: false on `nan` and `inf`, order comparison otherwise. -/
def FloatDist.leQ : FloatDist → ℚ → Bool
  | .nan, _ => false
  | .inf, _ => false
  | .fin q, bound => decide (q ≤ bound)

/-! ## Pointer samples

A pointer position `p` enters `_process_point` only through
`dist(p, self.center_left)`, `dist(p, self.center_right)`,
`self.angle_from(p, self.center_left)` and
`self.angle_from(p, self.center_right)`.  A `Sample` records those four
results (the angles are only consulted in the corresponding in-zone branch). -/
structure Sample where
  dist_left : FloatDist
  dist_right : FloatDist
  angle_left : ℚ
  angle_right : ℚ
  deriving DecidableEq

/-! ## Tick extraction loops of `_apply_delta` (lines 425-432) -/

/-- The loop `while accum >= DEGREES_PER_TICK: if value < MAX_COUNT: value += 1;
accum -= DEGREES_PER_TICK`, returning the final `(accum, value)`. -/
def drainUp (a : ℚ) (v : ℤ) : ℚ × ℤ :=
  if DEGREES_PER_TICK ≤ a then
    drainUp (a - DEGREES_PER_TICK) (if v < MAX_COUNT then v + 1 else v)
  else (a, v)
  termination_by (⌈a / DEGREES_PER_TICK⌉).toNat
  decreasing_by
    simp only [DEGREES_PER_TICK] at *
    have h1 : (a - 8) / 8 = a / 8 - 1 := by ring
    have h2 : ⌈(a - 8) / 8⌉ = ⌈a / 8⌉ - 1 := by rw [h1, Int.ceil_sub_one]
    have h3 : (0 : ℚ) < a / 8 := by linarith
    have h4 : 0 < ⌈a / 8⌉ := Int.ceil_pos.mpr h3
    omega

/-- The loop `while accum <= -DEGREES_PER_TICK: if value > MIN_COUNT:
value -= 1; accum += DEGREES_PER_TICK`, returning the final `(accum, value)`. -/
def drainDown (a : ℚ) (v : ℤ) : ℚ × ℤ :=
  if a ≤ -DEGREES_PER_TICK then
    drainDown (a + DEGREES_PER_TICK) (if MIN_COUNT < v then v - 1 else v)
  else (a, v)
  termination_by (⌈-a / DEGREES_PER_TICK⌉).toNat
  decreasing_by
    simp only [DEGREES_PER_TICK] at *
    have h1 : -(a + 8) / 8 = -a / 8 - 1 := by ring
    have h2 : ⌈-(a + 8) / 8⌉ = ⌈-a / 8⌉ - 1 := by rw [h1, Int.ceil_sub_one]
    have h3 : (0 : ℚ) < -a / 8 := by linarith
    have h4 : 0 < ⌈-a / 8⌉ := Int.ceil_pos.mpr h3
    omega

/-! ## Per-zone accumulator/value pair and `_apply_delta` (lines 419-444) -/

/-- One zone's `(accum, value)` pair (`accum_left`/`value_left` or
`accum_right`/`value_right`). -/
structure Knob where
  accum : ℚ
  value : ℤ
  deriving DecidableEq

/-- `_apply_delta` restricted to the zone it mutates: multiply the incoming
`diff_deg` by the configured sign, add it to the accumulator, then run the two
drain loops in source order. -/
def apply_delta (diff_deg : ℚ) (k : Knob) : Knob :=
  let sign : ℚ := if CLOCKWISE_IS_UP then 1 else -1
  let d := diff_deg * sign
  let a := k.accum + d
  let up := drainUp a k.value
  let down := drainDown up.1 up.2
  ⟨down.1, down.2⟩

/-! ## Controller state of `DualKnobRings` (lines 354-361) -/

/-- The mutable per-zone controller fields set up in `__init__`:
`last_angle_left/right` (`None` initially), `accum_left/right` (`0.0`),
`value_left/right` (`0`). -/
@[ext]
structure DualState where
  last_angle_left : Option ℚ
  last_angle_right : Option ℚ
  accum_left : ℚ
  accum_right : ℚ
  value_left : ℤ
  value_right : ℤ
  deriving DecidableEq

/-- The state after `__init__`. -/
def initState : DualState :=
  { last_angle_left := none
    last_angle_right := none
    accum_left := 0
    accum_right := 0
    value_left := 0
    value_right := 0 }

/-! ## `_process_point` (lines 458-476) -/

/-- `_process_point(p)`: dispatch on the two hit-tests in source order
(`if dist <= KNOB_RADIUS ... elif ... else`), compute the normalized diff
against the stored last angle when present, gate `_apply_delta` on
`abs(diff) >= 0.2`, and update the zone's last angle; a sample outside both
zones clears both last angles. -/
def process_point (p : Sample) (s : DualState) : DualState :=
  if p.dist_left.leQ KNOB_RADIUS then
    let angle := p.angle_left
    let s1 :=
      match s.last_angle_left with
      | some last =>
        let diff := normalize_deg (angle - last)
        if (0.2 : ℚ) ≤ |diff| then
          let k := apply_delta diff ⟨s.accum_left, s.value_left⟩
          { s with accum_left := k.accum, value_left := k.value }
        else s
      | none => s
    { s1 with last_angle_left := some angle }
  else if p.dist_right.leQ KNOB_RADIUS then
    let angle := p.angle_right
    let s1 :=
      match s.last_angle_right with
      | some last =>
        let diff := normalize_deg (angle - last)
        if (0.2 : ℚ) ≤ |diff| then
          let k := apply_delta diff ⟨s.accum_right, s.value_right⟩
          { s with accum_right := k.accum, value_right := k.value }
        else s
      | none => s
    { s1 with last_angle_right := some angle }
  else
    { s with last_angle_left := none, last_angle_right := none }

/-! ## Unfolding lemmas for the drain loops -/

theorem drainUp_of_lt (a : ℚ) (v : ℤ) (h : a < DEGREES_PER_TICK) :
    drainUp a v = (a, v) := by
  rw [drainUp]
  simp [not_le.mpr h]

theorem drainUp_step (a : ℚ) (v : ℤ) (h : DEGREES_PER_TICK ≤ a) :
    drainUp a v
      = drainUp (a - DEGREES_PER_TICK) (if v < MAX_COUNT then v + 1 else v) := by
  rw [drainUp]
  simp [h]

theorem drainDown_of_gt (a : ℚ) (v : ℤ) (h : -DEGREES_PER_TICK < a) :
    drainDown a v = (a, v) := by
  rw [drainDown]
  simp [not_le.mpr h]

theorem drainDown_step (a : ℚ) (v : ℤ) (h : a ≤ -DEGREES_PER_TICK) :
    drainDown a v
      = drainDown (a + DEGREES_PER_TICK) (if MIN_COUNT < v then v - 1 else v) := by
  rw [drainDown]
  simp [h]

/-! ## Settlement bounds for the drain loops -/

theorem drainUp_fst_lt (a : ℚ) (v : ℤ) : (drainUp a v).1 < DEGREES_PER_TICK := by
  induction a, v using drainUp.induct with
  | case1 a v h ih => rw [drainUp_step a v h]; exact ih
  | case2 a v h => rw [drainUp_of_lt a v (not_le.mp h)]; exact not_le.mp h

theorem drainUp_value_bounds (a : ℚ) (v : ℤ)
    (h1 : MIN_COUNT ≤ v) (h2 : v ≤ MAX_COUNT) :
    MIN_COUNT ≤ (drainUp a v).2 ∧ (drainUp a v).2 ≤ MAX_COUNT := by
  induction a, v using drainUp.induct with
  | case1 a v h ih =>
    rw [drainUp_step a v h]
    by_cases hv : v < MAX_COUNT
    · exact ih (by simp [hv]; omega) (by simp [hv]; omega)
    · exact ih (by simp [hv]; omega) (by simp [hv]; omega)
  | case2 a v h =>
    rw [drainUp_of_lt a v (not_le.mp h)]
    exact ⟨h1, h2⟩

theorem drainDown_fst_gt (a : ℚ) (v : ℤ) :
    -DEGREES_PER_TICK < (drainDown a v).1 := by
  induction a, v using drainDown.induct with
  | case1 a v h ih => rw [drainDown_step a v h]; exact ih
  | case2 a v h => rw [drainDown_of_gt a v (not_le.mp h)]; exact not_le.mp h

theorem drainDown_fst_lt (a : ℚ) (v : ℤ) (h0 : a < DEGREES_PER_TICK) :
    (drainDown a v).1 < DEGREES_PER_TICK := by
  induction a, v using drainDown.induct with
  | case1 a v h ih =>
    rw [drainDown_step a v h]
    apply ih
    simp only [DEGREES_PER_TICK] at h ⊢
    linarith
  | case2 a v h => rw [drainDown_of_gt a v (not_le.mp h)]; exact h0

theorem drainDown_value_bounds (a : ℚ) (v : ℤ)
    (h1 : MIN_COUNT ≤ v) (h2 : v ≤ MAX_COUNT) :
    MIN_COUNT ≤ (drainDown a v).2 ∧ (drainDown a v).2 ≤ MAX_COUNT := by
  induction a, v using drainDown.induct with
  | case1 a v h ih =>
    rw [drainDown_step a v h]
    by_cases hv : MIN_COUNT < v
    · exact ih (by simp [hv]; omega) (by simp [hv]; omega)
    · exact ih (by simp [hv]; omega) (by simp [hv]; omega)
  | case2 a v h =>
    rw [drainDown_of_gt a v (not_le.mp h)]
    exact ⟨h1, h2⟩

/-- After `_apply_delta`, whatever the incoming accumulator and delta were,
the zone's accumulator has settled strictly inside
`(-DEGREES_PER_TICK, DEGREES_PER_TICK)` and its value is still inside
`[MIN_COUNT, MAX_COUNT]`. -/
theorem apply_delta_bounds (d : ℚ) (k : Knob)
    (h1 : MIN_COUNT ≤ k.value) (h2 : k.value ≤ MAX_COUNT) :
    (MIN_COUNT ≤ (apply_delta d k).value ∧ (apply_delta d k).value ≤ MAX_COUNT)
      ∧ (-DEGREES_PER_TICK < (apply_delta d k).accum
          ∧ (apply_delta d k).accum < DEGREES_PER_TICK) := by
  unfold apply_delta
  refine ⟨⟨?_, ?_⟩, ?_, ?_⟩
  · exact (drainDown_value_bounds _ _
      (drainUp_value_bounds _ _ h1 h2).1 (drainUp_value_bounds _ _ h1 h2).2).1
  · exact (drainDown_value_bounds _ _
      (drainUp_value_bounds _ _ h1 h2).1 (drainUp_value_bounds _ _ h1 h2).2).2
  · exact drainDown_fst_gt _ _
  · exact drainDown_fst_lt _ _ (drainUp_fst_lt _ _)

/-! ## Branch characterizations of `_process_point` -/

theorem process_point_left_prime (p : Sample) (s : DualState)
    (hin : p.dist_left.leQ KNOB_RADIUS = true)
    (hlast : s.last_angle_left = none) :
    process_point p s = { s with last_angle_left := some p.angle_left } := by
  unfold process_point
  simp [hin, hlast]

theorem process_point_left_apply (p : Sample) (s : DualState) (last : ℚ)
    (hin : p.dist_left.leQ KNOB_RADIUS = true)
    (hlast : s.last_angle_left = some last)
    (hdz : (0.2 : ℚ) ≤ |normalize_deg (p.angle_left - last)|) :
    process_point p s =
      { s with
          last_angle_left := some p.angle_left
          accum_left := (apply_delta (normalize_deg (p.angle_left - last))
            ⟨s.accum_left, s.value_left⟩).accum
          value_left := (apply_delta (normalize_deg (p.angle_left - last))
            ⟨s.accum_left, s.value_left⟩).value } := by
  unfold process_point
  simp [hin, hlast, hdz]

theorem process_point_left_dead (p : Sample) (s : DualState) (last : ℚ)
    (hin : p.dist_left.leQ KNOB_RADIUS = true)
    (hlast : s.last_angle_left = some last)
    (hdz : |normalize_deg (p.angle_left - last)| < (0.2 : ℚ)) :
    process_point p s = { s with last_angle_left := some p.angle_left } := by
  unfold process_point
  simp [hin, hlast, not_le.mpr hdz]

theorem process_point_right_prime (p : Sample) (s : DualState)
    (hout : p.dist_left.leQ KNOB_RADIUS = false)
    (hin : p.dist_right.leQ KNOB_RADIUS = true)
    (hlast : s.last_angle_right = none) :
    process_point p s = { s with last_angle_right := some p.angle_right } := by
  unfold process_point
  simp [hout, hin, hlast]

theorem process_point_right_apply (p : Sample) (s : DualState) (last : ℚ)
    (hout : p.dist_left.leQ KNOB_RADIUS = false)
    (hin : p.dist_right.leQ KNOB_RADIUS = true)
    (hlast : s.last_angle_right = some last)
    (hdz : (0.2 : ℚ) ≤ |normalize_deg (p.angle_right - last)|) :
    process_point p s =
      { s with
          last_angle_right := some p.angle_right
          accum_right := (apply_delta (normalize_deg (p.angle_right - last))
            ⟨s.accum_right, s.value_right⟩).accum
          value_right := (apply_delta (normalize_deg (p.angle_right - last))
            ⟨s.accum_right, s.value_right⟩).value } := by
  unfold process_point
  simp [hout, hin, hlast, hdz]

theorem process_point_right_dead (p : Sample) (s : DualState) (last : ℚ)
    (hout : p.dist_left.leQ KNOB_RADIUS = false)
    (hin : p.dist_right.leQ KNOB_RADIUS = true)
    (hlast : s.last_angle_right = some last)
    (hdz : |normalize_deg (p.angle_right - last)| < (0.2 : ℚ)) :
    process_point p s = { s with last_angle_right := some p.angle_right } := by
  unfold process_point
  simp [hout, hin, hlast, not_le.mpr hdz]

theorem process_point_outside (p : Sample) (s : DualState)
    (hL : p.dist_left.leQ KNOB_RADIUS = false)
    (hR : p.dist_right.leQ KNOB_RADIUS = false) :
    process_point p s =
      { s with last_angle_left := none, last_angle_right := none } := by
  unfold process_point
  simp [hL, hR]

/-! ## The controller invariant -/

/-- Both zone values are inside `[MIN_COUNT, MAX_COUNT]` and both accumulators
are strictly inside `(-DEGREES_PER_TICK, DEGREES_PER_TICK)`. -/
def Inv (s : DualState) : Prop :=
  MIN_COUNT ≤ s.value_left ∧ s.value_left ≤ MAX_COUNT ∧
  MIN_COUNT ≤ s.value_right ∧ s.value_right ≤ MAX_COUNT ∧
  -DEGREES_PER_TICK < s.accum_left ∧ s.accum_left < DEGREES_PER_TICK ∧
  -DEGREES_PER_TICK < s.accum_right ∧ s.accum_right < DEGREES_PER_TICK

theorem Inv_initState : Inv initState := by
  unfold Inv initState DEGREES_PER_TICK MIN_COUNT MAX_COUNT
  norm_num

theorem process_point_preserves_Inv (p : Sample) (s : DualState) (h : Inv s) :
    Inv (process_point p s) := by
  obtain ⟨h1, h2, h3, h4, h5, h6, h7, h8⟩ := h
  by_cases hL : p.dist_left.leQ KNOB_RADIUS = true
  · cases hlast : s.last_angle_left with
    | none =>
      rw [process_point_left_prime p s hL hlast]
      exact ⟨h1, h2, h3, h4, h5, h6, h7, h8⟩
    | some last =>
      by_cases hdz : (0.2 : ℚ) ≤ |normalize_deg (p.angle_left - last)|
      · rw [process_point_left_apply p s last hL hlast hdz]
        have hb := apply_delta_bounds (normalize_deg (p.angle_left - last))
          ⟨s.accum_left, s.value_left⟩ h1 h2
        exact ⟨hb.1.1, hb.1.2, h3, h4, hb.2.1, hb.2.2, h7, h8⟩
      · rw [process_point_left_dead p s last hL hlast (not_le.mp hdz)]
        exact ⟨h1, h2, h3, h4, h5, h6, h7, h8⟩
  · have hL' : p.dist_left.leQ KNOB_RADIUS = false := by
      simpa using hL
    by_cases hR : p.dist_right.leQ KNOB_RADIUS = true
    · cases hlast : s.last_angle_right with
      | none =>
        rw [process_point_right_prime p s hL' hR hlast]
        exact ⟨h1, h2, h3, h4, h5, h6, h7, h8⟩
      | some last =>
        by_cases hdz : (0.2 : ℚ) ≤ |normalize_deg (p.angle_right - last)|
        · rw [process_point_right_apply p s last hL' hR hlast hdz]
          have hb := apply_delta_bounds (normalize_deg (p.angle_right - last))
            ⟨s.accum_right, s.value_right⟩ h3 h4
          exact ⟨h1, h2, hb.1.1, hb.1.2, h5, h6, hb.2.1, hb.2.2⟩
        · rw [process_point_right_dead p s last hL' hR hlast (not_le.mp hdz)]
          exact ⟨h1, h2, h3, h4, h5, h6, h7, h8⟩
    · have hR' : p.dist_right.leQ KNOB_RADIUS = false := by
        simpa using hR
      rw [process_point_outside p s hL' hR']
      exact ⟨h1, h2, h3, h4, h5, h6, h7, h8⟩

/-- C1: starting from the initial state, after any sequence of pointer
samples both zone values (integers by construction, `ℤ`) lie within
`[MIN_COUNT, MAX_COUNT]` and both settled accumulators lie strictly within
`(-DEGREES_PER_TICK, DEGREES_PER_TICK)`. -/
theorem C1_value_and_accumulator_invariant (samples : List Sample) :
    Inv (samples.foldl (fun s p => process_point p s) initState) := by
  suffices h : ∀ s, Inv s → Inv (samples.foldl (fun s p => process_point p s) s) by
    exact h initState Inv_initState
  induction samples with
  | nil => intro s hs; simpa using hs
  | cons p ps ih =>
    intro s hs
    simp only [List.foldl_cons]
    exact ih _ (process_point_preserves_Inv p s hs)

/-! ## Exact tick extraction -/

/-- With `CLOCKWISE_IS_UP = True` the sign multiplier is `+1`, so
`_apply_delta` adds `diff_deg` itself to the accumulator and drains. -/
theorem apply_delta_eq (d : ℚ) (k : Knob) :
    apply_delta d k =
      ⟨(drainDown (drainUp (k.accum + d) k.value).1
          (drainUp (k.accum + d) k.value).2).1,
        (drainDown (drainUp (k.accum + d) k.value).1
          (drainUp (k.accum + d) k.value).2).2⟩ := by
  unfold apply_delta CLOCKWISE_IS_UP
  simp

/-- Running the increment loop on `k * DEGREES_PER_TICK + r` with
`0 ≤ r < DEGREES_PER_TICK` performs exactly `k` increments when
`v + k ≤ MAX_COUNT`, and leaves remainder `r`. -/
theorem drainUp_exact (k : ℕ) (v : ℤ) (r : ℚ)
    (h0 : 0 ≤ r) (h8 : r < DEGREES_PER_TICK) (hv : v + (k : ℤ) ≤ MAX_COUNT) :
    drainUp ((k : ℚ) * DEGREES_PER_TICK + r) v = (r, v + (k : ℤ)) := by
  induction k generalizing v with
  | zero =>
    simpa using drainUp_of_lt r v h8
  | succ k ih =>
    have ha : DEGREES_PER_TICK ≤ ((k : ℚ) + 1) * DEGREES_PER_TICK + r := by
      have hk : (0 : ℚ) ≤ (k : ℚ) := Nat.cast_nonneg k
      unfold DEGREES_PER_TICK at *
      nlinarith
    have hvlt : v < MAX_COUNT := by
      have : ((k : ℤ) + 1 : ℤ) = ((k + 1 : ℕ) : ℤ) := by push_cast; ring
      omega
    have harith : ((k : ℚ) + 1) * DEGREES_PER_TICK + r - DEGREES_PER_TICK
        = (k : ℚ) * DEGREES_PER_TICK + r := by ring
    have hcast : (((k + 1 : ℕ)) : ℚ) = (k : ℚ) + 1 := by push_cast; ring
    rw [hcast, drainUp_step _ _ ha, if_pos hvlt, harith,
      ih (v + 1) (by push_cast at hv ⊢; omega)]
    congr 1
    push_cast
    ring

/-- C3: a single signed delta of exactly `k * DEGREES_PER_TICK + r`
(`0 ≤ r < DEGREES_PER_TICK`) applied to a zone with accumulator `0` and
mid-range value (`MIN_COUNT < v`, `v + k ≤ MAX_COUNT`) changes the value by
exactly `k` and leaves the accumulator equal to `r` (clockwise-up sign
convention). -/
theorem C3_multi_tick_per_sample (k : ℕ) (r : ℚ) (v : ℤ)
    (h0 : 0 ≤ r) (h8 : r < DEGREES_PER_TICK)
    (hv1 : MIN_COUNT < v) (hv2 : v + (k : ℤ) ≤ MAX_COUNT) :
    apply_delta ((k : ℚ) * DEGREES_PER_TICK + r) ⟨0, v⟩ = ⟨r, v + (k : ℤ)⟩ := by
  rw [apply_delta_eq]
  have hup : drainUp ((0 : ℚ) + ((k : ℚ) * DEGREES_PER_TICK + r)) v
      = (r, v + (k : ℤ)) := by
    rw [zero_add]
    exact drainUp_exact k v r h0 h8 hv2
  rw [hup, drainDown_of_gt _ _ (by unfold DEGREES_PER_TICK at *; linarith)]

/-- Witness for C3: a single 40° delta (5 ticks, remainder 0) from value 50. -/
theorem C3_multi_tick_per_sample_witness :
    apply_delta 40 ⟨0, 50⟩ = ⟨0, 55⟩ := by
  have h := C3_multi_tick_per_sample 5 0 50 (by norm_num)
    (by norm_num [DEGREES_PER_TICK]) (by norm_num [MIN_COUNT])
    (by norm_num [MAX_COUNT])
  norm_num [DEGREES_PER_TICK] at h
  exact h

/-! ## Boundary saturation -/

/-- Compose the two drain-loop results into the `_apply_delta` output. -/
theorem apply_delta_pair (d : ℚ) (k : Knob) (a1 : ℚ) (v1 : ℤ) (a2 : ℚ) (v2 : ℤ)
    (hup : drainUp (k.accum + d) k.value = (a1, v1))
    (hdown : drainDown a1 v1 = (a2, v2)) :
    apply_delta d k = ⟨a2, v2⟩ := by
  rw [apply_delta_eq, hup]
  rw [show ((a1, v1) : ℚ × ℤ).1 = a1 from rfl,
    show ((a1, v1) : ℚ × ℤ).2 = v1 from rfl, hdown]

theorem apply_delta_tick_at_max :
    apply_delta DEGREES_PER_TICK ⟨0, MAX_COUNT⟩ = ⟨0, MAX_COUNT⟩ := by
  refine apply_delta_pair _ _ 0 MAX_COUNT 0 MAX_COUNT ?_ ?_
  · rw [show ((⟨0, MAX_COUNT⟩ : Knob).accum + DEGREES_PER_TICK) = DEGREES_PER_TICK
      by simp]
    rw [drainUp_step _ _ le_rfl, if_neg (by norm_num [MAX_COUNT]), sub_self]
    exact drainUp_of_lt 0 MAX_COUNT (by norm_num [DEGREES_PER_TICK])
  · exact drainDown_of_gt 0 MAX_COUNT (by norm_num [DEGREES_PER_TICK])

theorem apply_delta_tick_at_min :
    apply_delta (-DEGREES_PER_TICK) ⟨0, MIN_COUNT⟩ = ⟨0, MIN_COUNT⟩ := by
  refine apply_delta_pair _ _ (-DEGREES_PER_TICK) MIN_COUNT 0 MIN_COUNT ?_ ?_
  · rw [show ((⟨0, MIN_COUNT⟩ : Knob).accum + -DEGREES_PER_TICK)
      = -DEGREES_PER_TICK by simp]
    exact drainUp_of_lt _ _ (by norm_num [DEGREES_PER_TICK])
  · rw [drainDown_step _ _ le_rfl, if_neg (by norm_num [MIN_COUNT]),
      neg_add_cancel]
    exact drainDown_of_gt 0 MIN_COUNT (by norm_num [DEGREES_PER_TICK])

/-- C4: at `value = MAX_COUNT` with settled accumulator `0`, a further
clockwise `DEGREES_PER_TICK` delta leaves the value at `MAX_COUNT` and drains
the accumulator back to `0` (the overflowing tick is discarded, not carried);
hence a subsequent counter-clockwise delta of magnitude `d < DEGREES_PER_TICK`
does not decrease the value.  Symmetrically at `MIN_COUNT`. -/
theorem C4_boundary_saturation (d : ℚ) (h0 : 0 ≤ d) (h8 : d < DEGREES_PER_TICK) :
    apply_delta DEGREES_PER_TICK ⟨0, MAX_COUNT⟩ = ⟨0, MAX_COUNT⟩ ∧
    (apply_delta (-d) (apply_delta DEGREES_PER_TICK ⟨0, MAX_COUNT⟩)).value
      = MAX_COUNT ∧
    apply_delta (-DEGREES_PER_TICK) ⟨0, MIN_COUNT⟩ = ⟨0, MIN_COUNT⟩ ∧
    (apply_delta d (apply_delta (-DEGREES_PER_TICK) ⟨0, MIN_COUNT⟩)).value
      = MIN_COUNT := by
  refine ⟨apply_delta_tick_at_max, ?_, apply_delta_tick_at_min, ?_⟩
  · rw [apply_delta_tick_at_max,
      apply_delta_pair (-d) ⟨0, MAX_COUNT⟩ (-d) MAX_COUNT (-d) MAX_COUNT
        (by rw [show ((⟨0, MAX_COUNT⟩ : Knob).accum + -d) = -d by simp]
            exact drainUp_of_lt _ _ (by unfold DEGREES_PER_TICK at *; linarith))
        (drainDown_of_gt _ _ (by unfold DEGREES_PER_TICK at *; linarith))]
  · rw [apply_delta_tick_at_min,
      apply_delta_pair d ⟨0, MIN_COUNT⟩ d MIN_COUNT d MIN_COUNT
        (by rw [show ((⟨0, MIN_COUNT⟩ : Knob).accum + d) = d by simp]
            exact drainUp_of_lt _ _ h8)
        (drainDown_of_gt _ _ (by unfold DEGREES_PER_TICK at *; linarith))]

/-- Witness for C4 at a concrete reverse delta of 4°. -/
theorem C4_boundary_saturation_witness :
    apply_delta DEGREES_PER_TICK ⟨0, MAX_COUNT⟩ = ⟨0, MAX_COUNT⟩ ∧
    (apply_delta (-4) (apply_delta DEGREES_PER_TICK ⟨0, MAX_COUNT⟩)).value
      = MAX_COUNT ∧
    apply_delta (-DEGREES_PER_TICK) ⟨0, MIN_COUNT⟩ = ⟨0, MIN_COUNT⟩ ∧
    (apply_delta 4 (apply_delta (-DEGREES_PER_TICK) ⟨0, MIN_COUNT⟩)).value
      = MIN_COUNT :=
  C4_boundary_saturation 4 (by norm_num) (by norm_num [DEGREES_PER_TICK])

/-! ## Normalization -/

/-- Counterexample for C5: `normalize_deg` does not wrap every input outside
`(-180, 180]` into that range — the input `-180` (a raw difference that two
in-zone samples at angles `0°` and `180°` produce) is returned unchanged and
lies outside `(-180, 180]`. -/
theorem C5_normalize_counterexample :
    normalize_deg (-180) = -180 ∧
    ¬((-180 : ℚ) < normalize_deg (-180) ∧ normalize_deg (-180) ≤ 180) := by
  norm_num [normalize_deg]

/-- C5 (amended): for inputs in `(-360, 360)` other than `-180` — which
covers every difference of two angles taken from `atan2`'s range except the
exact half-turn — `normalize_deg` lands in `(-180, 180]` and acts by adding
`360`, subtracting `360`, or leaving the value unchanged; in particular the
difference of consecutive angles `179°` and `-179°` normalizes to `2°`. -/
theorem C5_normalize_wraps (d : ℚ)
    (h1 : -360 < d) (h2 : d < 360) (h3 : d ≠ -180) :
    ((-180 : ℚ) < normalize_deg d ∧ normalize_deg d ≤ 180) ∧
    (normalize_deg d = d ∨ normalize_deg d = d - 360 ∨
      normalize_deg d = d + 360) ∧
    normalize_deg (-179 - 179) = 2 := by
  refine ⟨?_, ?_, by norm_num [normalize_deg]⟩
  · unfold normalize_deg
    split_ifs with hg hl
    · constructor <;> linarith
    · constructor <;> linarith
    · refine ⟨lt_of_le_of_ne (by linarith [not_lt.mp hl]) (Ne.symm h3), ?_⟩
      exact not_lt.mp hg
  · unfold normalize_deg
    split_ifs <;> tauto

/-- Witness for C5 (amended) at input `200`. -/
theorem C5_normalize_wraps_witness :
    ((-180 : ℚ) < normalize_deg 200 ∧ normalize_deg 200 ≤ 180) ∧
    (normalize_deg 200 = 200 ∨ normalize_deg 200 = 200 - 360 ∨
      normalize_deg 200 = 200 + 360) ∧
    normalize_deg (-179 - 179) = 2 :=
  C5_normalize_wraps 200 (by norm_num) (by norm_num) (by norm_num)

/-! ## Unconditional last-angle tracking -/

theorem process_point_left_last (p : Sample) (s : DualState)
    (hin : p.dist_left.leQ KNOB_RADIUS = true) :
    (process_point p s).last_angle_left = some p.angle_left := by
  cases hlast : s.last_angle_left with
  | none => rw [process_point_left_prime p s hin hlast]
  | some last =>
    by_cases hdz : (0.2 : ℚ) ≤ |normalize_deg (p.angle_left - last)|
    · rw [process_point_left_apply p s last hin hlast hdz]
    · rw [process_point_left_dead p s last hin hlast (not_le.mp hdz)]

theorem process_point_right_last (p : Sample) (s : DualState)
    (hout : p.dist_left.leQ KNOB_RADIUS = false)
    (hin : p.dist_right.leQ KNOB_RADIUS = true) :
    (process_point p s).last_angle_right = some p.angle_right := by
  cases hlast : s.last_angle_right with
  | none => rw [process_point_right_prime p s hout hin hlast]
  | some last =>
    by_cases hdz : (0.2 : ℚ) ≤ |normalize_deg (p.angle_right - last)|
    · rw [process_point_right_apply p s last hout hin hlast hdz]
    · rw [process_point_right_dead p s last hout hin hlast (not_le.mp hdz)]

/-- C6: after any in-zone sample the zone's last angle is set to the newly
computed angle unconditionally, even when the dead-zone filter rejects the
delta, while the zone's accumulator and value are left unchanged whenever the
stored last angle is absent or `|diff| < 0.2`. -/
theorem C6_last_angle_update_unconditional (p : Sample) (s : DualState) :
    (p.dist_left.leQ KNOB_RADIUS = true →
      (process_point p s).last_angle_left = some p.angle_left ∧
      (∀ last, s.last_angle_left = some last →
        |normalize_deg (p.angle_left - last)| < 0.2 →
        (process_point p s).accum_left = s.accum_left ∧
        (process_point p s).value_left = s.value_left) ∧
      (s.last_angle_left = none →
        (process_point p s).accum_left = s.accum_left ∧
        (process_point p s).value_left = s.value_left)) ∧
    (p.dist_left.leQ KNOB_RADIUS = false →
      p.dist_right.leQ KNOB_RADIUS = true →
      (process_point p s).last_angle_right = some p.angle_right ∧
      (∀ last, s.last_angle_right = some last →
        |normalize_deg (p.angle_right - last)| < 0.2 →
        (process_point p s).accum_right = s.accum_right ∧
        (process_point p s).value_right = s.value_right) ∧
      (s.last_angle_right = none →
        (process_point p s).accum_right = s.accum_right ∧
        (process_point p s).value_right = s.value_right)) := by
  constructor
  · intro hin
    refine ⟨process_point_left_last p s hin, ?_, ?_⟩
    · intro last hlast hdz
      rw [process_point_left_dead p s last hin hlast hdz]
      exact ⟨rfl, rfl⟩
    · intro hlast
      rw [process_point_left_prime p s hin hlast]
      exact ⟨rfl, rfl⟩
  · intro hout hin
    refine ⟨process_point_right_last p s hout hin, ?_, ?_⟩
    · intro last hlast hdz
      rw [process_point_right_dead p s last hout hin hlast hdz]
      exact ⟨rfl, rfl⟩
    · intro hlast
      rw [process_point_right_prime p s hout hin hlast]
      exact ⟨rfl, rfl⟩

/-! ## Evaluation helpers for the hit-test comparison -/

theorem leQ_fin_true (q b : ℚ) (h : q ≤ b) :
    (FloatDist.fin q).leQ b = true := by
  simp [FloatDist.leQ, h]

theorem leQ_fin_false (q b : ℚ) (h : ¬q ≤ b) :
    (FloatDist.fin q).leQ b = false := by
  simp [FloatDist.leQ, h]

/-- Witness for C6: an in-zone sample at angle `30°` against a stored last
angle of `30.1°` (`|diff| = 0.1 < 0.2`) re-stores the last angle and leaves
accumulator and value untouched. -/
theorem C6_last_angle_update_unconditional_witness :
    (process_point ⟨.fin 100, .fin 600, 30, 0⟩
      ⟨some (301/10), none, 0, 0, 7, 0⟩).last_angle_left = some 30 ∧
    (process_point ⟨.fin 100, .fin 600, 30, 0⟩
      ⟨some (301/10), none, 0, 0, 7, 0⟩).accum_left = 0 ∧
    (process_point ⟨.fin 100, .fin 600, 30, 0⟩
      ⟨some (301/10), none, 0, 0, 7, 0⟩).value_left = 7 := by
  have hin : (FloatDist.fin 100).leQ KNOB_RADIUS = true :=
    leQ_fin_true 100 KNOB_RADIUS (by norm_num [KNOB_RADIUS])
  have h := (C6_last_angle_update_unconditional ⟨.fin 100, .fin 600, 30, 0⟩
    ⟨some (301/10), none, 0, 0, 7, 0⟩).1 hin
  have hdz : |normalize_deg ((30 : ℚ) - 301/10)| < 0.2 := by
    norm_num [normalize_deg, abs_lt]
  exact ⟨h.1, (h.2.1 (301/10) rfl hdz).1, (h.2.1 (301/10) rfl hdz).2⟩

/-! ## Idempotence of sample processing -/

/-- C9: feeding the identical pointer sample twice in a row leaves the state
exactly as it was after the first call — the second call computes a zero diff,
which the `0.2°` dead zone filters out. -/
theorem C9_idempotent (p : Sample) (s : DualState) :
    process_point p (process_point p s) = process_point p s := by
  by_cases hL : p.dist_left.leQ KNOB_RADIUS = true
  · have hlast := process_point_left_last p s hL
    have hdz : |normalize_deg (p.angle_left - p.angle_left)| < (0.2 : ℚ) := by
      rw [sub_self]
      norm_num [normalize_deg]
    rw [process_point_left_dead p (process_point p s) p.angle_left hL hlast hdz]
    ext <;> simp [hlast]
  · have hL' : p.dist_left.leQ KNOB_RADIUS = false := by simpa using hL
    by_cases hR : p.dist_right.leQ KNOB_RADIUS = true
    · have hlast := process_point_right_last p s hL' hR
      have hdz : |normalize_deg (p.angle_right - p.angle_right)| < (0.2 : ℚ) := by
        rw [sub_self]
        norm_num [normalize_deg]
      rw [process_point_right_dead p (process_point p s) p.angle_right hL' hR
        hlast hdz]
      ext <;> simp [hlast]
    · have hR' : p.dist_right.leQ KNOB_RADIUS = false := by simpa using hR
      have h1 := process_point_outside p s hL' hR'
      rw [process_point_outside p (process_point p s) hL' hR', h1]

/-! ## Frame effect of one sample -/

/-- C10: one sample mutates at most one zone — a left-zone sample leaves all
right-zone fields unchanged, a right-zone sample leaves all left-zone fields
unchanged, and a sample outside both zones leaves both values and both
accumulators unchanged while clearing only the two last-angle markers. -/
theorem C10_single_zone_frame (p : Sample) (s : DualState) :
    (p.dist_left.leQ KNOB_RADIUS = true →
      (process_point p s).value_right = s.value_right ∧
      (process_point p s).accum_right = s.accum_right ∧
      (process_point p s).last_angle_right = s.last_angle_right) ∧
    (p.dist_left.leQ KNOB_RADIUS = false →
      p.dist_right.leQ KNOB_RADIUS = true →
      (process_point p s).value_left = s.value_left ∧
      (process_point p s).accum_left = s.accum_left ∧
      (process_point p s).last_angle_left = s.last_angle_left) ∧
    (p.dist_left.leQ KNOB_RADIUS = false →
      p.dist_right.leQ KNOB_RADIUS = false →
      (process_point p s).value_left = s.value_left ∧
      (process_point p s).accum_left = s.accum_left ∧
      (process_point p s).value_right = s.value_right ∧
      (process_point p s).accum_right = s.accum_right ∧
      (process_point p s).last_angle_left = none ∧
      (process_point p s).last_angle_right = none) := by
  refine ⟨?_, ?_, ?_⟩
  · intro hin
    cases hlast : s.last_angle_left with
    | none =>
      rw [process_point_left_prime p s hin hlast]
      exact ⟨rfl, rfl, rfl⟩
    | some last =>
      by_cases hdz : (0.2 : ℚ) ≤ |normalize_deg (p.angle_left - last)|
      · rw [process_point_left_apply p s last hin hlast hdz]
        exact ⟨rfl, rfl, rfl⟩
      · rw [process_point_left_dead p s last hin hlast (not_le.mp hdz)]
        exact ⟨rfl, rfl, rfl⟩
  · intro hout hin
    cases hlast : s.last_angle_right with
    | none =>
      rw [process_point_right_prime p s hout hin hlast]
      exact ⟨rfl, rfl, rfl⟩
    | some last =>
      by_cases hdz : (0.2 : ℚ) ≤ |normalize_deg (p.angle_right - last)|
      · rw [process_point_right_apply p s last hout hin hlast hdz]
        exact ⟨rfl, rfl, rfl⟩
      · rw [process_point_right_dead p s last hout hin hlast (not_le.mp hdz)]
        exact ⟨rfl, rfl, rfl⟩
  · intro hL hR
    rw [process_point_outside p s hL hR]
    exact ⟨rfl, rfl, rfl, rfl, rfl, rfl⟩

/-- Witness for C10: a concrete left-zone sample leaves the right zone's
fields unchanged. -/
theorem C10_single_zone_frame_witness :
    (process_point ⟨.fin 100, .fin 600, 45, 0⟩
      ⟨none, some 10, 3, 5, 20, 40⟩).value_right = 40 ∧
    (process_point ⟨.fin 100, .fin 600, 45, 0⟩
      ⟨none, some 10, 3, 5, 20, 40⟩).accum_right = 5 ∧
    (process_point ⟨.fin 100, .fin 600, 45, 0⟩
      ⟨none, some 10, 3, 5, 20, 40⟩).last_angle_right = some 10 :=
  (C10_single_zone_frame ⟨.fin 100, .fin 600, 45, 0⟩
    ⟨none, some 10, 3, 5, 20, 40⟩).1
    (leQ_fin_true 100 KNOB_RADIUS (by norm_num [KNOB_RADIUS]))

/-! ## Disengagement -/

/-- C2 (amended): a sample at distance greater than `KNOB_RADIUS` from BOTH
pivots resets both zones' last angles to absent and leaves every value and
accumulator unchanged, so following it with any sample never changes a value
or an accumulator: an in-zone successor only primes that zone's last angle.
(A sample that is out of one zone's radius but inside the other zone resets
nothing — see the counterexample.) -/
theorem C2_disengagement_reset (p q : Sample) (s : DualState)
    (hL : p.dist_left.leQ KNOB_RADIUS = false)
    (hR : p.dist_right.leQ KNOB_RADIUS = false) :
    ((process_point p s).last_angle_left = none ∧
      (process_point p s).last_angle_right = none ∧
      (process_point p s).value_left = s.value_left ∧
      (process_point p s).value_right = s.value_right ∧
      (process_point p s).accum_left = s.accum_left ∧
      (process_point p s).accum_right = s.accum_right) ∧
    ((process_point q (process_point p s)).value_left = s.value_left ∧
      (process_point q (process_point p s)).value_right = s.value_right ∧
      (process_point q (process_point p s)).accum_left = s.accum_left ∧
      (process_point q (process_point p s)).accum_right = s.accum_right) := by
  have h1 := process_point_outside p s hL hR
  refine ⟨by rw [h1]; exact ⟨rfl, rfl, rfl, rfl, rfl, rfl⟩, ?_⟩
  by_cases hqL : q.dist_left.leQ KNOB_RADIUS = true
  · rw [process_point_left_prime q (process_point p s) hqL (by rw [h1]), h1]
    exact ⟨rfl, rfl, rfl, rfl⟩
  · have hqL' : q.dist_left.leQ KNOB_RADIUS = false := by simpa using hqL
    by_cases hqR : q.dist_right.leQ KNOB_RADIUS = true
    · rw [process_point_right_prime q (process_point p s) hqL' hqR
        (by rw [h1]), h1]
      exact ⟨rfl, rfl, rfl, rfl⟩
    · have hqR' : q.dist_right.leQ KNOB_RADIUS = false := by simpa using hqR
      rw [process_point_outside q (process_point p s) hqL' hqR', h1]
      exact ⟨rfl, rfl, rfl, rfl⟩

/-- Witness for C2 (amended): a sample outside both zones followed by an
in-zone sample leaves both values and accumulators at their prior settings. -/
theorem C2_disengagement_reset_witness :
    ((process_point ⟨.fin 600, .fin 600, 0, 0⟩
        ⟨some 50, some 60, 3, 4, 20, 40⟩).last_angle_left = none ∧
      (process_point ⟨.fin 600, .fin 600, 0, 0⟩
        ⟨some 50, some 60, 3, 4, 20, 40⟩).last_angle_right = none ∧
      (process_point ⟨.fin 600, .fin 600, 0, 0⟩
        ⟨some 50, some 60, 3, 4, 20, 40⟩).value_left = 20 ∧
      (process_point ⟨.fin 600, .fin 600, 0, 0⟩
        ⟨some 50, some 60, 3, 4, 20, 40⟩).value_right = 40 ∧
      (process_point ⟨.fin 600, .fin 600, 0, 0⟩
        ⟨some 50, some 60, 3, 4, 20, 40⟩).accum_left = 3 ∧
      (process_point ⟨.fin 600, .fin 600, 0, 0⟩
        ⟨some 50, some 60, 3, 4, 20, 40⟩).accum_right = 4) ∧
    ((process_point ⟨.fin 100, .fin 600, 170, 0⟩
        (process_point ⟨.fin 600, .fin 600, 0, 0⟩
          ⟨some 50, some 60, 3, 4, 20, 40⟩)).value_left = 20 ∧
      (process_point ⟨.fin 100, .fin 600, 170, 0⟩
        (process_point ⟨.fin 600, .fin 600, 0, 0⟩
          ⟨some 50, some 60, 3, 4, 20, 40⟩)).value_right = 40 ∧
      (process_point ⟨.fin 100, .fin 600, 170, 0⟩
        (process_point ⟨.fin 600, .fin 600, 0, 0⟩
          ⟨some 50, some 60, 3, 4, 20, 40⟩)).accum_left = 3 ∧
      (process_point ⟨.fin 100, .fin 600, 170, 0⟩
        (process_point ⟨.fin 600, .fin 600, 0, 0⟩
          ⟨some 50, some 60, 3, 4, 20, 40⟩)).accum_right = 4) :=
  C2_disengagement_reset ⟨.fin 600, .fin 600, 0, 0⟩ ⟨.fin 100, .fin 600, 170, 0⟩
    ⟨some 50, some 60, 3, 4, 20, 40⟩
    (leQ_fin_false 600 KNOB_RADIUS (by norm_num [KNOB_RADIUS]))
    (leQ_fin_false 600 KNOB_RADIUS (by norm_num [KNOB_RADIUS]))

/-- Counterexample for C2 as stated: a sample at distance `600 > KNOB_RADIUS`
from the right pivot that lands inside the LEFT zone does not reset the right
zone's last angle (the `elif` chain skips the right zone entirely), and the
next in-right-zone sample therefore produces a delta: starting from the
initial state, after samples `A` (right zone, angle `-90°`), `B` (left zone,
`600` px from the right pivot) and `C` (right zone, angle `-82°`), the right
value has ticked from `0` to `1`. -/
theorem C2_counterexample :
    (Sample.mk (.fin 100) (.fin 600) 0 0).dist_right.leQ KNOB_RADIUS = false ∧
    (process_point ⟨.fin 100, .fin 600, 0, 0⟩
      (process_point ⟨.fin 600, .fin 100, 0, -90⟩ initState)).last_angle_right
        = some (-90) ∧
    (process_point ⟨.fin 600, .fin 100, 0, -82⟩
      (process_point ⟨.fin 100, .fin 600, 0, 0⟩
        (process_point ⟨.fin 600, .fin 100, 0, -90⟩ initState))).value_right
      = 1 := by
  have hfar : (FloatDist.fin 600).leQ KNOB_RADIUS = false :=
    leQ_fin_false 600 KNOB_RADIUS (by norm_num [KNOB_RADIUS])
  have hnear : (FloatDist.fin 100).leQ KNOB_RADIUS = true :=
    leQ_fin_true 100 KNOB_RADIUS (by norm_num [KNOB_RADIUS])
  have hA : process_point ⟨.fin 600, .fin 100, 0, -90⟩ initState
      = { initState with last_angle_right := some (-90) } :=
    process_point_right_prime _ _ hfar hnear rfl
  have hB : process_point ⟨.fin 100, .fin 600, 0, 0⟩
      { initState with last_angle_right := some (-90) }
      = { initState with
            last_angle_right := some (-90)
            last_angle_left := some 0 } :=
    process_point_left_prime _ _ hnear rfl
  have hdiff : normalize_deg ((-82 : ℚ) - -90) = 8 := by
    norm_num [normalize_deg]
  have hdz : (0.2 : ℚ) ≤ |normalize_deg ((-82 : ℚ) - -90)| := by
    rw [hdiff]
    norm_num
  have hdelta : apply_delta (normalize_deg ((-82 : ℚ) - -90)) ⟨0, 0⟩ = ⟨0, 1⟩ := by
    rw [hdiff]
    refine apply_delta_pair _ _ 0 1 0 1 ?_ ?_
    · rw [show ((⟨0, 0⟩ : Knob).accum + (8 : ℚ)) = DEGREES_PER_TICK
        by norm_num [DEGREES_PER_TICK]]
      rw [drainUp_step _ _ le_rfl, if_pos (by norm_num [MAX_COUNT]), sub_self]
      exact drainUp_of_lt 0 1 (by norm_num [DEGREES_PER_TICK])
    · exact drainDown_of_gt 0 1 (by norm_num [DEGREES_PER_TICK])
  refine ⟨hfar, ?_, ?_⟩
  · rw [hA, hB]
  · rw [hA, hB]
    have hC := process_point_right_apply ⟨.fin 600, .fin 100, 0, -82⟩
      { initState with
          last_angle_right := some (-90)
          last_angle_left := some 0 } (-90) hfar hnear rfl hdz
    rw [hC]
    show (apply_delta (normalize_deg ((-82 : ℚ) - -90)) ⟨0, 0⟩).value = 1
    rw [hdelta]

/-! ## Degenerate pointer geometry -/

theorem leQ_nonfinite_false (d : FloatDist) (b : ℚ)
    (h : d = .nan ∨ d = .inf) : d.leQ b = false := by
  rcases h with h | h <;> rw [h] <;> rfl

/-- C7 (amended): a sample whose distance computation comes out non-finite
(NaN or infinite) fails the `dist <= KNOB_RADIUS` comparison for that zone,
so with both distances non-finite the sample takes the out-of-zone branch:
both last angles are cleared and every value and accumulator is unchanged;
processing is a total function, so no error is raised.  A ZERO distance,
however, passes the comparison and is handled as in-zone (see the
counterexample). -/
theorem C7_nonfinite_distance_outside (p : Sample) (s : DualState)
    (hL : p.dist_left = .nan ∨ p.dist_left = .inf)
    (hR : p.dist_right = .nan ∨ p.dist_right = .inf) :
    process_point p s
      = { s with last_angle_left := none, last_angle_right := none } :=
  process_point_outside p s (leQ_nonfinite_false _ _ hL)
    (leQ_nonfinite_false _ _ hR)

/-- Witness for C7 (amended): a NaN left distance and an infinite right
distance clear both last angles and touch nothing else. -/
theorem C7_nonfinite_distance_outside_witness :
    process_point ⟨.nan, .inf, 0, 0⟩ ⟨some 10, some 20, 3, 4, 30, 60⟩
      = { (⟨some 10, some 20, 3, 4, 30, 60⟩ : DualState) with
            last_angle_left := none
            last_angle_right := none } :=
  C7_nonfinite_distance_outside ⟨.nan, .inf, 0, 0⟩
    ⟨some 10, some 20, 3, 4, 30, 60⟩ (Or.inl rfl) (Or.inr rfl)

/-- Counterexample for C7 as stated: a sample at distance exactly `0` from
the left pivot (the pointer on the pivot itself, where Python's
`math.atan2(0.0, 0.0)` returns `0.0`) is NOT treated as outside the radius:
`0 <= KNOB_RADIUS` holds, the in-zone branch runs, and with a stored last
angle of `-8°` the `8°` diff ticks the left value from `0` to `1`. -/
theorem C7_zero_distance_counterexample :
    (Sample.mk (.fin 0) (.fin 600) 0 0).dist_left.leQ KNOB_RADIUS = true ∧
    (process_point ⟨.fin 0, .fin 600, 0, 0⟩
      ⟨some (-8), none, 0, 0, 0, 0⟩).value_left = 1 := by
  have hin : (FloatDist.fin 0).leQ KNOB_RADIUS = true :=
    leQ_fin_true 0 KNOB_RADIUS (by norm_num [KNOB_RADIUS])
  have hdiff : normalize_deg ((0 : ℚ) - -8) = 8 := by
    norm_num [normalize_deg]
  have hdz : (0.2 : ℚ) ≤ |normalize_deg ((0 : ℚ) - -8)| := by
    rw [hdiff]
    norm_num
  have hdelta : apply_delta (normalize_deg ((0 : ℚ) - -8)) ⟨0, 0⟩ = ⟨0, 1⟩ := by
    rw [hdiff]
    refine apply_delta_pair _ _ 0 1 0 1 ?_ ?_
    · rw [show ((⟨0, 0⟩ : Knob).accum + (8 : ℚ)) = DEGREES_PER_TICK
        by norm_num [DEGREES_PER_TICK]]
      rw [drainUp_step _ _ le_rfl, if_pos (by norm_num [MAX_COUNT]), sub_self]
      exact drainUp_of_lt 0 1 (by norm_num [DEGREES_PER_TICK])
    · exact drainDown_of_gt 0 1 (by norm_num [DEGREES_PER_TICK])
  refine ⟨hin, ?_⟩
  have hC := process_point_left_apply ⟨.fin 0, .fin 600, 0, 0⟩
    ⟨some (-8), none, 0, 0, 0, 0⟩ (-8) hin rfl hdz
  rw [hC]
  show (apply_delta (normalize_deg ((0 : ℚ) - -8)) ⟨0, 0⟩).value = 1
  rw [hdelta]

/-! ## Gauge rendering (`GradientRingWidget.paintEvent`)

The painting pass is modelled by the numeric quantities the code computes:
the swept sector angle, the two draw guards, the arrow tip angle and the
label colour.  Pixel geometry (center, radii) cancels out of the claim. -/

/-- An opaque RGB colour as constructed by `QColor(r, g, b)`. -/
structure RGB where
  r : ℕ
  g : ℕ
  b : ℕ
  deriving DecidableEq

/-- `setValue`: clamp the incoming integer into `[0, 100]`. -/
def setValue (v : ℤ) : ℤ := max 0 (min 100 v)

/-- `visible_angle = 360.0 * (self._value / 100.0)`. -/
def visible_angle (v : ℤ) : ℚ := 360 * ((v : ℚ) / 100)

/-- `start_deg = -90.0` — the sector's start, top of the ring in the Qt arc
convention (Qt arc angles are counter-clockwise, i.e. the on-screen position
of Qt angle `α` is the screen-math direction `-α` used by `math.cos/sin`). -/
def start_deg : ℚ := -90

/-- The drop shadow pass is skipped unless `visible_angle > 0.5`. -/
def draw_shadow (v : ℤ) : Bool := decide ((1/2 : ℚ) < visible_angle v)

/-- The arrow is drawn only when `self._value > 0`. -/
def draw_arrow (v : ℤ) : Bool := decide (0 < v)

/-- `theta_deg = start_deg + 180.0 + visible_angle` — the arrow direction in
screen-math (`math.cos/sin`) angles. -/
def theta_deg (v : ℤ) : ℚ := start_deg + 180 + visible_angle v

/-- The first (red-end) conical gradient stop `c0 = QColor(220, 30, 10)`. -/
def gradient_c0 : RGB := ⟨220, 30, 10⟩

/-- The 9-bucket label colour table keyed on the value. -/
def text_color (v : ℤ) : RGB :=
  if v = 0 then ⟨0, 0, 0⟩
  else if v ≤ 12 then ⟨0, 200, 0⟩
  else if v ≤ 25 then ⟨80, 210, 0⟩
  else if v ≤ 37 then ⟨150, 220, 0⟩
  else if v ≤ 50 then ⟨220, 220, 0⟩
  else if v ≤ 62 then ⟨255, 200, 0⟩
  else if v ≤ 75 then ⟨255, 165, 0⟩
  else if v ≤ 87 then ⟨255, 100, 0⟩
  else ⟨220, 30, 10⟩

/-- C8: rendering value `0` sweeps a zero-angle (degenerate, invisible)
sector, skips the shadow pass and draws no arrow; rendering value `100`
sweeps the full `360°` ring and draws the arrow one full turn past the
sector's start position — i.e. at the start angle (`theta_deg 100` equals the
screen-math angle `-start_deg` of the sector start plus exactly `360°`) —
with the label painted in the red-end bucket colour, which coincides with
the gradient's red stop `c0`. -/
theorem C8_render_endpoints :
    visible_angle 0 = 0 ∧ draw_shadow 0 = false ∧ draw_arrow 0 = false ∧
    visible_angle 100 = 360 ∧ draw_arrow 100 = true ∧
    theta_deg 100 - -start_deg = 360 ∧
    text_color 100 = ⟨220, 30, 10⟩ ∧ text_color 100 = gradient_c0 := by
  refine ⟨by norm_num [visible_angle], ?_, ?_, by norm_num [visible_angle],
    ?_, by norm_num [theta_deg, visible_angle, start_deg], ?_, ?_⟩
  · simp [draw_shadow, visible_angle]
  · simp [draw_arrow]
  · simp [draw_arrow]
  · norm_num [text_color]
  · norm_num [text_color, gradient_c0]

end KnobApp
